import Mathlib

/-!
Verification of `src/js/plugins/raphaelLineTypeBase.js` (RaphaelLineTypeBase),
the shared rendering/interaction base for line type chart series.

The embedding models Raphael attribute dictionaries as a structure of optional
fields (one per attribute key this module ever touches), dot primitives as a
store of `Dot` values indexed by numeric ids (so that `groupDots` and the
cached `pivotGroupDots` alias the same dot objects, as the JS references do),
and the show/hide entry points as `Except`-valued state transformers, where
`Except.error .typeError` models the JS `TypeError` thrown when indexing into
`undefined` or calling `.attr` on `undefined`.

Numbers are modelled as rationals.
-/

namespace RaphaelLineTypeBase

/-- 2D point `{left, top}` in chart pixel space. -/
structure Position where
  left : ℚ
  top : ℚ
deriving DecidableEq

/-- Path descriptor. Modelled from the spec: `raphaelRenderUtil.makeLinePath`
(module `raphaelRenderUtil` is required by the source but is not among these
sources) produces the path from `fromPos` to `toPos`; we record its two
endpoints. -/
structure LinePath where
  fromPos : Position
  toPos : Position
deriving DecidableEq

/-- Modelled from the spec: `raphaelRenderUtil.makeLinePath(fromPos, toPos)`
returns the line path descriptor from `fromPos` to `toPos`. -/
def raphaelRenderUtilMakeLinePath (fromPos toPos : Position) : LinePath :=
  { fromPos := fromPos, toPos := toPos }

/-- An attribute value: a number, a string, or a path descriptor. -/
inductive AttrVal where
  | num (q : ℚ)
  | str (s : String)
  | pathVal (p : LinePath)
deriving DecidableEq

/-- An attribute dictionary restricted to the keys this module reads or
writes. `none` models an absent key. Field names stand for the Raphael
attribute keys `fill`, `fill-opacity`, `stroke-opacity`, `stroke-width`,
`r`, `stroke` and `path`. -/
structure Attrs where
  fill : Option AttrVal := none
  fillOpacity : Option AttrVal := none
  strokeOpacity : Option AttrVal := none
  strokeWidth : Option AttrVal := none
  r : Option AttrVal := none
  stroke : Option AttrVal := none
  path : Option AttrVal := none
deriving DecidableEq

/-- Applying a style dictionary `sty` to current attributes `a`
(`element.attr(sty)`, and also `tui.util.extend(a, sty)`): every key present
in `sty` overwrites the key in `a`, absent keys of `sty` leave `a` untouched. -/
def attrApply (a sty : Attrs) : Attrs :=
  { fill := sty.fill <|> a.fill,
    fillOpacity := sty.fillOpacity <|> a.fillOpacity,
    strokeOpacity := sty.strokeOpacity <|> a.strokeOpacity,
    strokeWidth := sty.strokeWidth <|> a.strokeWidth,
    r := sty.r <|> a.r,
    stroke := sty.stroke <|> a.stroke,
    path := sty.path <|> a.path }

/-- Source constant `DEFAULT_DOT_WIDTH = 3`. -/
def DEFAULT_DOT_WIDTH : ℚ := 3

/-- Source constant `HOVER_DOT_WIDTH = 4`. -/
def HOVER_DOT_WIDTH : ℚ := 4

/-- Style applied by `_showDot`:
`{fill-opacity: 1, stroke-opacity: 0.3, stroke-width: 2, r: HOVER_DOT_WIDTH}`. -/
def showDotStyle : Attrs :=
  { fillOpacity := some (.num 1),
    strokeOpacity := some (.num (3 / 10)),
    strokeWidth := some (.num 2),
    r := some (.num HOVER_DOT_WIDTH) }

/-- Source `makeOutDotStyle(opacity, borderStyle)`: base dictionary
`{fill-opacity: opacity, stroke-opacity: 0, r: DEFAULT_DOT_WIDTH}`, extended by
`borderStyle` (via `tui.util.extend`) when that is present. -/
def makeOutDotStyle (opacity : ℚ) (borderStyle : Option Attrs) : Attrs :=
  let outDotStyle : Attrs :=
    { fillOpacity := some (.num opacity),
      strokeOpacity := some (.num 0),
      r := some (.num DEFAULT_DOT_WIDTH) }
  match borderStyle with
  | some b => attrApply outDotStyle b
  | none => outDotStyle

/-- A rendered dot primitive: center coordinates of the underlying circle and
its current attribute dictionary. -/
structure Dot where
  cx : ℚ
  cy : ℚ
  attrs : Attrs
deriving DecidableEq

/-- Source `renderDot(paper, position, color)`: creates
`paper.circle(position.left, position.top, DEFAULT_DOT_WIDTH)` (so the circle
carries `r = DEFAULT_DOT_WIDTH`) and then applies
`{fill: color, fill-opacity: 0, stroke-opacity: 0}`. -/
def renderDot (position : Position) (color : String) : Dot :=
  { cx := position.left,
    cy := position.top,
    attrs := attrApply { r := some (.num DEFAULT_DOT_WIDTH) }
      { fill := some (.str color),
        fillOpacity := some (.num 0),
        strokeOpacity := some (.num 0) } }

/-- Source `renderDots(paper, groupPositions, colors)`: for each group index,
maps each position of the group to a dot coloured with `colors[groupIndex]`. -/
def renderDots (groupPositions : List (List Position)) (colors : List String) :
    List (List Dot) :=
  (List.range groupPositions.length).map fun groupIndex =>
    (groupPositions.getD groupIndex []).map fun position =>
      renderDot position (colors.getD groupIndex "")

/-- Source `_getCenter(fromPos, toPos)`: componentwise midpoint. -/
def _getCenter (fromPos toPos : Position) : Position :=
  { left := (fromPos.left + toPos.left) / 2,
    top := (fromPos.top + toPos.top) / 2 }

/-- Result of `makeLinePath`: the `start` and `end` members (the JS key `end`
is a reserved word in Lean, hence the field name `end_`). -/
structure LinePaths where
  start : LinePath
  end_ : LinePath
deriving DecidableEq

/-- Source `makeLinePath(fromPos, toPos)`: `start` is the zero-length path
`fromPos → fromPos`, `end` the full path `fromPos → toPos`, both built with
`raphaelRenderUtil.makeLinePath`. -/
def makeLinePath (fromPos toPos : Position) : LinePaths :=
  { start := raphaelRenderUtilMakeLinePath fromPos fromPos,
    end_ := raphaelRenderUtilMakeLinePath fromPos toPos }

/-- Lookup of a nested table entry `t[g][i]`, `none` when either index is out
of range. -/
def tableGet? {α : Type} (t : List (List α)) (g i : Nat) : Option α :=
  (t[g]?).bind fun row => row[i]?

/-- Hover payload `{groupIndex, index}` handed to `showAnimation` and
`hideAnimation`. As the source comments note ("Line chart has pivot values"),
`groupIndex` actually carries the point index and `index` the group index. -/
structure HoverData where
  groupIndex : Nat
  index : Nat
deriving DecidableEq

/-- The JS error raised when the code indexes into `undefined` or calls a
method on `undefined`. -/
inductive JsError where
  | typeError
deriving DecidableEq

/-- Instance state of the renderer. Dot primitives live in the store `dots`
(indexed by id); `groupDots` and the cached `pivotGroupDots` hold ids, so both
views alias the same primitives, as the JS object references do. -/
structure ChartState where
  dots : List Dot
  groupDots : List (List Nat)
  pivotGroupDots : Option (List (List Nat))
  outDotStyle : Attrs
  tooltipLine : Attrs
deriving DecidableEq

/-- Mutation of the dot with id `id` in the store: applies the style
dictionary `sty` to its attributes (`dot.attr(sty)`); ids outside the store
leave it unchanged. -/
def storeAttr (st : List Dot) (id : Nat) (sty : Attrs) : List Dot :=
  match st[id]? with
  | some d => st.set id { d with attrs := attrApply d.attrs sty }
  | none => st

/-- Source `showAnimation(data)`: reads `index = data.groupIndex`,
`groupIndex = data.index`, `dot = this.groupDots[groupIndex][index]` and calls
`this._showDot(dot)`. Indexing a missing group row (`undefined[index]`) or
calling `.attr` on a missing dot raises a `TypeError`. -/
def showAnimation (s : ChartState) (data : HoverData) : Except JsError ChartState :=
  let index := data.groupIndex
  let groupIndex := data.index
  match s.groupDots[groupIndex]? with
  | none => .error .typeError
  | some row =>
    match row[index]? with
    | none => .error .typeError
    | some dot => .ok { s with dots := storeAttr s.dots dot showDotStyle }

/-- Source `hideAnimation(data)`: like `showAnimation` but guarded by
`if (dot)`, so a missing dot inside an existing group row is a silent no-op;
`this._hideDot(dot)` applies the cached `this.outDotStyle`. A missing group
row still raises a `TypeError` (the guard comes after `undefined[index]`). -/
def hideAnimation (s : ChartState) (data : HoverData) : Except JsError ChartState :=
  let index := data.groupIndex
  let groupIndex := data.index
  match s.groupDots[groupIndex]? with
  | none => .error .typeError
  | some row =>
    match row[index]? with
    | none => .ok s
    | some dot => .ok { s with dots := storeAttr s.dots dot s.outDotStyle }

/-- One step of `tui.util.pivot`: pushes each element of `row` onto the
column list with the element's index, creating columns as needed. -/
def pivotInsert {α : Type} : List (List α) → List α → List (List α)
  | res, [] => res
  | [], v :: vs => [v] :: pivotInsert [] vs
  | r :: rs, v :: vs => (r ++ [v]) :: pivotInsert rs vs

/-- Dependency `tui.util.pivot`: index transpose of a nested array, built by
pushing every element onto the column of its inner index. -/
def pivot {α : Type} (t : List (List α)) : List (List α) :=
  t.foldl pivotInsert []

/-- Source `_getPivotGroupDots()`: returns the cached
`this.pivotGroupDots`, computing `tui.util.pivot(this.groupDots)` and caching
it first when the cache is empty. Returns the pivot table together with the
(possibly updated) state. -/
def _getPivotGroupDots (s : ChartState) : List (List Nat) × ChartState :=
  match s.pivotGroupDots with
  | some p => (p, s)
  | none => (pivot s.groupDots, { s with pivotGroupDots := some (pivot s.groupDots) })

/-- Style applied by `_hideTooltipLine`: `{stroke-opacity: 0}`. -/
def hideTooltipLineStyle : Attrs :=
  { strokeOpacity := some (.num 0) }

/-- Source `_hideTooltipLine()`: `this.tooltipLine.attr({stroke-opacity: 0})`. -/
def _hideTooltipLine (s : ChartState) : ChartState :=
  { s with tooltipLine := attrApply s.tooltipLine hideTooltipLineStyle }

/-- Source `_hideGroupDots(index)`: fetches the pivot table and applies
`_hideDot` (i.e. the cached `outDotStyle`) to every dot of column `index`.
Iterating a missing column (`forEachArray(undefined, ...)`) raises a
`TypeError`. -/
def _hideGroupDots (s : ChartState) (index : Nat) : Except JsError ChartState :=
  let pg := _getPivotGroupDots s
  match pg.fst[index]? with
  | none => .error .typeError
  | some col =>
    .ok { pg.snd with
          dots := col.foldl (fun st id => storeAttr st id pg.snd.outDotStyle) pg.snd.dots }

/-- Source `hideGroupAnimation(index)`: `_hideGroupDots(index)` then
`_hideTooltipLine()`. -/
def hideGroupAnimation (s : ChartState) (index : Nat) : Except JsError ChartState :=
  match _hideGroupDots s index with
  | .error e => .error e
  | .ok s1 => .ok (_hideTooltipLine s1)

/-- Bound `{dimension: {width, height}, position: {left, top}}` supplied per
hover event. -/
structure Bound where
  width : ℚ
  height : ℚ
  position : Position
deriving DecidableEq

/-- Source `_showTooltipLine(bound)`: sets the tooltip line's `path` to the
vertical segment from `(bound.position.left, bound.dimension.height)` to
`(bound.position.left, bound.position.top)`, `stroke` to `"#999"` and
`stroke-opacity` to 1. -/
def _showTooltipLine (s : ChartState) (bound : Bound) : ChartState :=
  let sty : Attrs :=
    { path := some (.pathVal (raphaelRenderUtilMakeLinePath
        { left := bound.position.left, top := bound.height }
        { left := bound.position.left, top := bound.position.top })),
      stroke := some (.str "#999"),
      strokeOpacity := some (.num 1) }
  { s with tooltipLine := attrApply s.tooltipLine sty }

/-- Source `_showGroupDots(index)`: fetches the pivot table and applies
`_showDot` to every dot of column `index`. -/
def _showGroupDots (s : ChartState) (index : Nat) : Except JsError ChartState :=
  let pg := _getPivotGroupDots s
  match pg.fst[index]? with
  | none => .error .typeError
  | some col =>
    .ok { pg.snd with
          dots := col.foldl (fun st id => storeAttr st id showDotStyle) pg.snd.dots }

/-- Source `showGroupAnimation(index, bound)`: `_showGroupDots(index)` then
`_showTooltipLine(bound)`. -/
def showGroupAnimation (s : ChartState) (index : Nat) (bound : Bound) :
    Except JsError ChartState :=
  match _showGroupDots s index with
  | .error e => .error e
  | .ok s1 => .ok (_showTooltipLine s1 bound)

/-- Modelled from the spec: the render pass that replaces `groupDots` lives in
the subclasses, which are not among these sources; per the spec the pivot view
"must be invalidated (recomputed) whenever groupDots is replaced", so setting a
new dataset installs the new store and marker table and resets the cached
`pivotGroupDots`. -/
def replaceGroupDots (s : ChartState) (newDots : List Dot)
    (newGroupDots : List (List Nat)) : ChartState :=
  { s with dots := newDots, groupDots := newGroupDots, pivotGroupDots := none }

/-- Source `_bindHoverEvent(dot, position, groupIndex, index, inCallback,
outCallback)`: registers the hover pair; on enter the closure calls
`inCallback(position, index, groupIndex)`, on exit `outCallback()`. The
returned pair holds the value each closure produces when the corresponding
hover event fires. -/
def _bindHoverEvent {α β : Type} (position : Position) (groupIndex index : Nat)
    (inCallback : Position → Nat → Nat → α) (outCallback : Unit → β) : α × β :=
  (inCallback position index groupIndex, outCallback ())

/-- Source `attachEvent(groupDots, groupPositions, outDotStyle, inCallback,
outCallback)`: for every `(groupIndex, index)` of `groupDots`, binds the hover
pair on that dot with `position = groupPositions[groupIndex][index]`. The
`outDotStyle` argument is accepted and unused, as in the source. -/
def attachEvent {α β : Type} (groupDots : List (List Nat))
    (groupPositions : List (List Position)) (outDotStyle : Attrs)
    (inCallback : Position → Nat → Nat → α) (outCallback : Unit → β) :
    List (List (α × β)) :=
  (List.range groupDots.length).map fun groupIndex =>
    (List.range (groupDots.getD groupIndex []).length).map fun index =>
      _bindHoverEvent ((groupPositions.getD groupIndex []).getD index
          { left := 0, top := 0 })
        groupIndex index inCallback outCallback

/-- Ids of the markers in pivot column `i`: for every group row that has an
entry at inner index `i`, that entry, in group order. -/
def columnIds (t : List (List Nat)) (i : Nat) : List Nat :=
  t.filterMap fun row => row[i]?

/-- Overwriting with the same optional value twice equals overwriting once. -/
theorem orElse_self_assoc {α : Type} (x y : Option α) : (x <|> (x <|> y)) = (x <|> y) := by
  cases x <;> rfl

/-- Applying the same style dictionary twice equals applying it once. -/
theorem attrApply_idem (a sty : Attrs) :
    attrApply (attrApply a sty) sty = attrApply a sty := by
  simp only [attrApply, orElse_self_assoc]

/-- Lookup after a single store mutation: the targeted id (when present) gets
the style applied, every other id is untouched. -/
theorem storeAttr_getElem? (st : List Dot) (id j : Nat) (sty : Attrs) :
    (storeAttr st id sty)[j]? =
      if j = id then (st[j]?).map (fun d => { d with attrs := attrApply d.attrs sty })
      else st[j]? := by
  unfold storeAttr
  cases h : st[id]? with
  | none =>
    by_cases hj : j = id
    · subst hj
      simp [h]
    · simp [hj]
  | some d =>
    have hlt : id < st.length := by
      rw [List.getElem?_eq_some] at h
      exact h.1
    rw [List.getElem?_set]
    by_cases hj : j = id
    · subst hj
      simp [hlt, h]
    · rw [if_neg (fun hh : id = j => hj hh.symm), if_neg hj]

/-- Lookup after hiding (or showing) a whole list of ids by a fold of
`storeAttr`: each id in the list gets the style applied once (duplicates are
harmless since `attrApply` is idempotent), other ids are untouched. -/
theorem foldl_storeAttr_getElem? (col : List Nat) (st : List Dot) (sty : Attrs) (j : Nat) :
    (col.foldl (fun acc id => storeAttr acc id sty) st)[j]? =
      if j ∈ col then (st[j]?).map (fun d => { d with attrs := attrApply d.attrs sty })
      else st[j]? := by
  induction col generalizing st with
  | nil => simp
  | cons id rest ih =>
    rw [List.foldl_cons, ih, storeAttr_getElem?]
    by_cases hj : j ∈ rest
    · by_cases hji : j = id
      · subst hji
        simp only [hj, if_true, List.mem_cons, true_or, or_true, if_pos]
        cases st[j]? with
        | none => rfl
        | some d => simp [attrApply_idem]
      · simp [hj, hji, List.mem_cons]
    · by_cases hji : j = id
      · subst hji
        simp [hj, List.mem_cons]
      · simp [hj, hji, List.mem_cons]

/-- Column `i` of `pivotInsert res row` is column `i` of `res` extended by the
entry of `row` at `i`, when that exists. -/
theorem pivotInsert_getD {α : Type} (row : List α) (res : List (List α)) (i : Nat) :
    (pivotInsert res row).getD i [] = res.getD i [] ++ (row[i]?).toList := by
  induction row generalizing res i with
  | nil =>
    cases res <;> simp [pivotInsert]
  | cons v vs ih =>
    cases res with
    | nil =>
      cases i with
      | zero => simp [pivotInsert]
      | succ i => simpa [pivotInsert] using ih [] i
    | cons r rs =>
      cases i with
      | zero => simp [pivotInsert]
      | succ i => simpa [pivotInsert] using ih rs i

/-- Column `i` of a `pivotInsert` fold, generalized over the accumulator. -/
theorem foldl_pivotInsert_getD {α : Type} (t : List (List α)) (res : List (List α)) (i : Nat) :
    (t.foldl pivotInsert res).getD i [] =
      res.getD i [] ++ t.filterMap (fun row => row[i]?) := by
  induction t generalizing res with
  | nil => simp
  | cons row t ih =>
    rw [List.foldl_cons, ih, pivotInsert_getD]
    rw [List.append_assoc]
    congr 1
    cases h : row[i]? <;> simp [List.filterMap_cons, h]

/-- Column `i` of `tui.util.pivot t` collects exactly the entries `t[g][i]` of
the groups `g` that have one, in group order. -/
theorem pivot_getD {α : Type} (t : List (List α)) (i : Nat) :
    (pivot t).getD i [] = t.filterMap (fun row => row[i]?) := by
  simpa using foldl_pivotInsert_getD t [] i

/-- Sample dots for concrete evaluations. -/
def sampleDot0 : Dot := renderDot { left := 1, top := 2 } "red"

/-- Second sample dot. -/
def sampleDot1 : Dot := renderDot { left := 3, top := 4 } "red"

/-- Third sample dot. -/
def sampleDot2 : Dot := renderDot { left := 5, top := 6 } "blue"

/-- A sample renderer state: two groups, the first with two dots, the second
with one, pivot not yet computed. -/
def sampleState : ChartState :=
  { dots := [sampleDot0, sampleDot1, sampleDot2],
    groupDots := [[0, 1], [2]],
    pivotGroupDots := none,
    outDotStyle := makeOutDotStyle 1 none,
    tooltipLine := { stroke := some (.str "transparent"), strokeWidth := some (.num 1) } }

/-- A minimal one-dot state used for concrete counterexamples. -/
def roundTripDot : Dot := renderDot { left := 5, top := 7 } "red"

/-- One freshly rendered dot in one group, hover styles never applied yet. -/
def roundTripState : ChartState :=
  { dots := [roundTripDot],
    groupDots := [[0]],
    pivotGroupDots := none,
    outDotStyle := makeOutDotStyle 1 none,
    tooltipLine := {} }

/-- C8: `makeOutDotStyle(o, b)` returns exactly the base dictionary
`{fill-opacity: o, stroke-opacity: 0, r: 3}` when `b` is undefined; when `b`
is defined the result is the base dictionary with `b`'s fields merged in,
fields of `b` overriding base fields of the same name (`fill-opacity`,
`stroke-opacity` and `r` fall back to the base values `o`, `0` and `3` only
when `b` lacks them; all other keys come from `b` alone). -/
theorem makeOutDotStyle_spec (o : ℚ) (b : Attrs) :
    makeOutDotStyle o none =
      { fillOpacity := some (.num o), strokeOpacity := some (.num 0),
        r := some (.num 3) } ∧
    (makeOutDotStyle o (some b)).fill = b.fill ∧
    (makeOutDotStyle o (some b)).fillOpacity = some (b.fillOpacity.getD (.num o)) ∧
    (makeOutDotStyle o (some b)).strokeOpacity = some (b.strokeOpacity.getD (.num 0)) ∧
    (makeOutDotStyle o (some b)).strokeWidth = b.strokeWidth ∧
    (makeOutDotStyle o (some b)).r = some (b.r.getD (.num 3)) ∧
    (makeOutDotStyle o (some b)).stroke = b.stroke ∧
    (makeOutDotStyle o (some b)).path = b.path := by
  refine ⟨rfl, ?_, ?_, ?_, ?_, ?_, ?_, ?_⟩ <;>
    simp only [makeOutDotStyle, attrApply, DEFAULT_DOT_WIDTH]
  · cases b.fill <;> rfl
  · cases b.fillOpacity <;> rfl
  · cases b.strokeOpacity <;> rfl
  · cases b.strokeWidth <;> rfl
  · cases b.r <;> rfl
  · cases b.stroke <;> rfl
  · cases b.path <;> rfl

/-- C9: for all positions `A` and `B` (including `A = B`), `makeLinePath A B`
returns the pair whose `start` member is the zero-length path from `A` to `A`
and whose `end` member is the full path from `A` to `B`; as a Lean function it
is pure. -/
theorem makeLinePath_spec (A B : Position) :
    (makeLinePath A B).start = { fromPos := A, toPos := A } ∧
    (makeLinePath A B).end_ = { fromPos := A, toPos := B } :=
  ⟨rfl, rfl⟩

/-- C10: `_getCenter` returns the componentwise midpoint of its two argument
positions; as a Lean function it touches no instance state. -/
theorem getCenter_spec (a1 a2 b1 b2 : ℚ) :
    _getCenter { left := a1, top := a2 } { left := b1, top := b2 } =
      { left := (a1 + b1) / 2, top := (a2 + b2) / 2 } :=
  rfl

/-- C1: whenever `groupDots[data.index][data.groupIndex]` exists,
`showAnimation data` succeeds and applies exactly the style
`{fill-opacity: 1, stroke-opacity: 0.3, stroke-width: 2, r: 4}`
(`showDotStyle`) to that marker — the payload field `groupIndex` is used as
the point index and the field `index` as the group index — and leaves every
other marker and the rest of the state unchanged. -/
theorem showAnimation_spec (s : ChartState) (data : HoverData) (row : List Nat) (id : Nat)
    (hrow : s.groupDots[data.index]? = some row)
    (hdot : row[data.groupIndex]? = some id) :
    ∃ s2, showAnimation s data = Except.ok s2 ∧
      s2.dots[id]? = (s.dots[id]?).map
        (fun d => { d with attrs := attrApply d.attrs showDotStyle }) ∧
      (∀ j : Nat, j ≠ id → s2.dots[j]? = s.dots[j]?) ∧
      s2.groupDots = s.groupDots ∧ s2.pivotGroupDots = s.pivotGroupDots ∧
      s2.outDotStyle = s.outDotStyle ∧ s2.tooltipLine = s.tooltipLine := by
  refine ⟨{ s with dots := storeAttr s.dots id showDotStyle }, ?_, ?_, ?_, rfl, rfl, rfl, rfl⟩
  · simp [showAnimation, hrow, hdot]
  · rw [show ({ s with dots := storeAttr s.dots id showDotStyle } : ChartState).dots =
        storeAttr s.dots id showDotStyle from rfl]
    rw [storeAttr_getElem?, if_pos rfl]
  · intro j hj
    rw [show ({ s with dots := storeAttr s.dots id showDotStyle } : ChartState).dots =
        storeAttr s.dots id showDotStyle from rfl]
    rw [storeAttr_getElem?, if_neg hj]

/-- Witness for C1 at a concrete state: payload `{groupIndex: 1, index: 0}`
targets `groupDots[0][1]`, id `1`. -/
theorem showAnimation_spec_witness :
    ∃ s2, showAnimation sampleState { groupIndex := 1, index := 0 } = Except.ok s2 ∧
      s2.dots[1]? = (sampleState.dots[1]?).map
        (fun d => { d with attrs := attrApply d.attrs showDotStyle }) ∧
      (∀ j : Nat, j ≠ 1 → s2.dots[j]? = sampleState.dots[j]?) ∧
      s2.groupDots = sampleState.groupDots ∧
      s2.pivotGroupDots = sampleState.pivotGroupDots ∧
      s2.outDotStyle = sampleState.outDotStyle ∧
      s2.tooltipLine = sampleState.tooltipLine :=
  showAnimation_spec sampleState { groupIndex := 1, index := 0 } [0, 1] 1 rfl rfl

/-- C2 counterexample: on a freshly rendered marker (fill-opacity 0, no
stroke-width key) with `outDotStyle = makeOutDotStyle 1 none`, show followed
by hide leaves the marker with fill-opacity 1 and stroke-width 2, not its
pre-show attribute set. -/
theorem showHide_roundTrip_counterexample :
    ∃ s1 s2, showAnimation roundTripState { groupIndex := 0, index := 0 } = Except.ok s1 ∧
      hideAnimation s1 { groupIndex := 0, index := 0 } = Except.ok s2 ∧
      s2.dots[0]?.map Dot.attrs ≠ roundTripState.dots[0]?.map Dot.attrs :=
  ⟨_, _, rfl, rfl, by decide⟩

/-- C2 (amended): show followed by hide on the same marker leaves that
marker's attributes equal to its pre-show attributes overridden by
`showDotStyle` and then by the cached `outDotStyle`, all other markers
unchanged; this equals the pre-show attribute set exactly when the pre-show
attributes are already a fixed point of that composition (e.g. the marker was
already in the out state with stroke-width 2 when `outDotStyle` carries no
stroke-width), not for arbitrary pre-show states. -/
theorem showHide_roundTrip (s : ChartState) (data : HoverData) (row : List Nat) (id : Nat)
    (hrow : s.groupDots[data.index]? = some row)
    (hdot : row[data.groupIndex]? = some id) :
    ∃ s1 s2, showAnimation s data = Except.ok s1 ∧ hideAnimation s1 data = Except.ok s2 ∧
      (∀ j : Nat, s2.dots[j]? =
        if j = id then (s.dots[j]?).map
          (fun d => { d with attrs := attrApply (attrApply d.attrs showDotStyle) s.outDotStyle })
        else s.dots[j]?) ∧
      (∀ d : Dot, s.dots[id]? = some d →
        attrApply (attrApply d.attrs showDotStyle) s.outDotStyle = d.attrs →
        s2.dots = s.dots) := by
  have hchar : ∀ j : Nat,
      (storeAttr (storeAttr s.dots id showDotStyle) id s.outDotStyle)[j]? =
        if j = id then (s.dots[j]?).map
          (fun d => { d with attrs := attrApply (attrApply d.attrs showDotStyle) s.outDotStyle })
        else s.dots[j]? := by
    intro j
    rw [storeAttr_getElem?, storeAttr_getElem?]
    by_cases hj : j = id
    · rw [if_pos hj, if_pos hj, if_pos hj]
      cases s.dots[j]? <;> rfl
    · rw [if_neg hj, if_neg hj, if_neg hj]
  refine ⟨{ s with dots := storeAttr s.dots id showDotStyle },
    { s with dots := storeAttr (storeAttr s.dots id showDotStyle) id s.outDotStyle },
    ?_, ?_, hchar, ?_⟩
  · simp [showAnimation, hrow, hdot]
  · simp [hideAnimation, hrow, hdot]
  · intro d hd heq
    refine List.ext_getElem? fun j => ?_
    rw [show ({ s with dots := storeAttr (storeAttr s.dots id showDotStyle) id s.outDotStyle }
        : ChartState).dots = storeAttr (storeAttr s.dots id showDotStyle) id s.outDotStyle
        from rfl]
    rw [hchar j]
    by_cases hj : j = id
    · subst hj
      rw [if_pos rfl, hd]
      show some { d with attrs := attrApply (attrApply d.attrs showDotStyle) s.outDotStyle }
        = some d
      rw [heq]
    · rw [if_neg hj]

/-- Witness for the amended C2 at a concrete state: payload
`{groupIndex: 0, index: 1}` targets `groupDots[1][0]`, id `2`. -/
theorem showHide_roundTrip_witness :
    ∃ s1 s2, showAnimation sampleState { groupIndex := 0, index := 1 } = Except.ok s1 ∧
      hideAnimation s1 { groupIndex := 0, index := 1 } = Except.ok s2 ∧
      (∀ j : Nat, s2.dots[j]? =
        if j = 2 then (sampleState.dots[j]?).map
          (fun d => { d with attrs := attrApply (attrApply d.attrs showDotStyle) sampleState.outDotStyle })
        else sampleState.dots[j]?) ∧
      (∀ d : Dot, sampleState.dots[2]? = some d →
        attrApply (attrApply d.attrs showDotStyle) sampleState.outDotStyle = d.attrs →
        s2.dots = sampleState.dots) :=
  showHide_roundTrip sampleState { groupIndex := 0, index := 1 } [2] 2 rfl rfl

/-- C3 counterexample: in a state whose marker table is `[[0]]`, the payload
`{groupIndex: 0, index: 1}` addresses the absent marker `groupDots[1][0]`,
and `hideAnimation` raises a `TypeError` (the JS code indexes
`undefined[0]`) instead of being a silent no-op. -/
theorem hideAnimation_missingRow_counterexample :
    tableGet? roundTripState.groupDots 1 0 = none ∧
    hideAnimation roundTripState { groupIndex := 0, index := 1 } =
      Except.error JsError.typeError :=
  ⟨rfl, rfl⟩

/-- C3 (amended): when the group row `groupDots[data.index]` exists but its
entry at `data.groupIndex` is absent, `hideAnimation data` is a silent no-op
returning the state unchanged; when the group row itself is absent it raises
a `TypeError` instead. -/
theorem hideAnimation_missingDot_noop (s : ChartState) (data : HoverData) (row : List Nat)
    (hrow : s.groupDots[data.index]? = some row)
    (hdot : row[data.groupIndex]? = none) :
    hideAnimation s data = Except.ok s := by
  simp [hideAnimation, hrow, hdot]

/-- Witness for the amended C3: payload `{groupIndex: 2, index: 0}` addresses
the absent entry `groupDots[0][2]` of the existing row `[0, 1]`. -/
theorem hideAnimation_missingDot_noop_witness :
    hideAnimation sampleState { groupIndex := 2, index := 0 } = Except.ok sampleState :=
  hideAnimation_missingDot_noop sampleState { groupIndex := 2, index := 0 } [0, 1] rfl rfl

/-- C4: after a dataset is installed (`replaceGroupDots`, which per the spec
resets the cached pivot), the first pivot access computes exactly
`tui.util.pivot` of the new `groupDots` and caches it, and a later access
returns the cached value with the state unchanged (so the transpose is
computed at most once per dataset and is always consistent with the current
`groupDots`, which the show/hide group animations read through this
accessor). -/
theorem pivotGroupDots_cache_spec (s : ChartState) (newDots : List Dot)
    (newGroupDots : List (List Nat)) :
    (_getPivotGroupDots (replaceGroupDots s newDots newGroupDots)).fst =
      pivot newGroupDots ∧
    (_getPivotGroupDots (replaceGroupDots s newDots newGroupDots)).snd =
      { replaceGroupDots s newDots newGroupDots with
        pivotGroupDots := some (pivot newGroupDots) } ∧
    (_getPivotGroupDots (replaceGroupDots s newDots newGroupDots)).snd.groupDots =
      newGroupDots ∧
    _getPivotGroupDots ((_getPivotGroupDots (replaceGroupDots s newDots newGroupDots)).snd) =
      ((_getPivotGroupDots (replaceGroupDots s newDots newGroupDots)).fst,
        (_getPivotGroupDots (replaceGroupDots s newDots newGroupDots)).snd) :=
  ⟨rfl, rfl, rfl, rfl⟩

/-- C5: for a pivot cache that is empty or consistent and a valid column
index `idx`, `hideGroupAnimation idx` applies the cached `outDotStyle` to
exactly the markers `groupDots[g][idx]` of every group `g` having a point at
`idx`, leaves all other markers unchanged, and sets the tooltip line's
`stroke-opacity` to 0 while leaving its `path` and `stroke` attributes
unchanged. -/
theorem hideGroupAnimation_spec (s : ChartState) (idx : Nat)
    (hpivot : s.pivotGroupDots = none ∨ s.pivotGroupDots = some (pivot s.groupDots))
    (hidx : idx < (pivot s.groupDots).length) :
    ∃ s2, hideGroupAnimation s idx = Except.ok s2 ∧
      (∀ j : Nat, s2.dots[j]? =
        if j ∈ columnIds s.groupDots idx then (s.dots[j]?).map
          (fun d => { d with attrs := attrApply d.attrs s.outDotStyle })
        else s.dots[j]?) ∧
      s2.tooltipLine.strokeOpacity = some (.num 0) ∧
      s2.tooltipLine.path = s.tooltipLine.path ∧
      s2.tooltipLine.stroke = s.tooltipLine.stroke ∧
      s2.groupDots = s.groupDots ∧ s2.outDotStyle = s.outDotStyle := by
  have hpg : _getPivotGroupDots s =
      (pivot s.groupDots, { s with pivotGroupDots := some (pivot s.groupDots) }) := by
    rcases hpivot with h | h
    · unfold _getPivotGroupDots
      rw [h]
    · unfold _getPivotGroupDots
      rw [h]
      show (pivot s.groupDots, s) = _
      rw [← h]
  have hcol : (pivot s.groupDots)[idx]? = some (columnIds s.groupDots idx) := by
    rw [List.getElem?_eq_getElem hidx]
    congr 1
    have hgd := pivot_getD s.groupDots idx
    rw [List.getD_eq_getElem?_getD, List.getElem?_eq_getElem hidx] at hgd
    exact hgd
  refine ⟨_hideTooltipLine { s with
      pivotGroupDots := some (pivot s.groupDots),
      dots := (columnIds s.groupDots idx).foldl
        (fun st id => storeAttr st id s.outDotStyle) s.dots }, ?_, ?_, rfl, ?_, ?_, rfl, rfl⟩
  · unfold hideGroupAnimation _hideGroupDots
    rw [hpg]
    simp only [hcol]
  · intro j
    show ((columnIds s.groupDots idx).foldl
        (fun st id => storeAttr st id s.outDotStyle) s.dots)[j]? = _
    rw [foldl_storeAttr_getElem?]
  · rfl
  · rfl

/-- Witness for C5: hiding column 0 of the sample state restyles markers 0
and 2 (the first dot of each group) and switches the tooltip line off. -/
theorem hideGroupAnimation_spec_witness :
    ∃ s2, hideGroupAnimation sampleState 0 = Except.ok s2 ∧
      (∀ j : Nat, s2.dots[j]? =
        if j ∈ columnIds sampleState.groupDots 0 then (sampleState.dots[j]?).map
          (fun d => { d with attrs := attrApply d.attrs sampleState.outDotStyle })
        else sampleState.dots[j]?) ∧
      s2.tooltipLine.strokeOpacity = some (.num 0) ∧
      s2.tooltipLine.path = sampleState.tooltipLine.path ∧
      s2.tooltipLine.stroke = sampleState.tooltipLine.stroke ∧
      s2.groupDots = sampleState.groupDots ∧
      s2.outDotStyle = sampleState.outDotStyle :=
  hideGroupAnimation_spec sampleState 0 (Or.inl rfl) (by decide)

/-- C6: after `attachEvent`, the hover pair bound on the marker at
`(groupIndex g, pointIndex i)` invokes `inCallback` on enter with exactly the
arguments `(groupPositions[g][i], i, g)` — position first, then the inner
(point) index, then the outer (group) index — and invokes `outCallback` on
exit with no arguments (its sole argument is the unit value). -/
theorem attachEvent_spec {α β : Type} (groupDots : List (List Nat))
    (groupPositions : List (List Position)) (outDotStyle : Attrs)
    (inCallback : Position → Nat → Nat → α) (outCallback : Unit → β)
    (g i : Nat) (pos : Position)
    (hg : g < groupDots.length)
    (hi : i < (groupDots.getD g []).length)
    (hpos : tableGet? groupPositions g i = some pos) :
    tableGet? (attachEvent groupDots groupPositions outDotStyle inCallback outCallback) g i =
      some (inCallback pos i g, outCallback ()) := by
  obtain ⟨prow, hprow, hppos⟩ :
      ∃ prow, groupPositions[g]? = some prow ∧ prow[i]? = some pos := by
    unfold tableGet? at hpos
    cases hr : groupPositions[g]? with
    | none => rw [hr] at hpos; exact absurd hpos (by simp)
    | some prow => rw [hr] at hpos; exact ⟨prow, rfl, hpos⟩
  have hrowg : groupPositions.getD g [] = prow := by
    rw [List.getD_eq_getElem?_getD, hprow]
    rfl
  have hgetDpos : (groupPositions.getD g []).getD i { left := 0, top := 0 } = pos := by
    rw [hrowg, List.getD_eq_getElem?_getD, hppos]
    rfl
  unfold tableGet? attachEvent
  rw [List.getElem?_map, List.getElem?_range hg]
  show (((List.range (groupDots.getD g []).length).map fun index =>
      _bindHoverEvent ((groupPositions.getD g []).getD index { left := 0, top := 0 })
        g index inCallback outCallback))[i]? = _
  rw [List.getElem?_map, List.getElem?_range hi]
  show some (_bindHoverEvent ((groupPositions.getD g []).getD i { left := 0, top := 0 })
      g i inCallback outCallback) = _
  rw [hgetDpos]
  rfl

/-- Witness for C6: hover-enter on marker `(g=0, i=1)` of a concrete pair of
congruent tables yields the callback arguments `(position, 1, 0)`. -/
theorem attachEvent_spec_witness :
    tableGet? (attachEvent [[0, 1], [2]]
        [[{ left := 1, top := 2 }, { left := 3, top := 4 }], [{ left := 5, top := 6 }]]
        (makeOutDotStyle 1 none)
        (fun p i g => (p, i, g)) (fun _ => (9 : Nat))) 0 1 =
      some (({ left := 3, top := 4 }, 1, 0), 9) :=
  attachEvent_spec [[0, 1], [2]]
    [[{ left := 1, top := 2 }, { left := 3, top := 4 }], [{ left := 5, top := 6 }]]
    (makeOutDotStyle 1 none) (fun p i g => (p, i, g)) (fun _ => (9 : Nat))
    0 1 { left := 3, top := 4 } (by decide) (by decide) rfl

/-- C7: for every `groupPositions` (groups may have differing, possibly zero,
inner lengths) and every `colors` list with one entry per group, `renderDots`
returns a table congruent with `groupPositions` (same outer length, same
per-group inner lengths) whose entry at `(g, i)` is the dot rendered at
`groupPositions[g][i]` with fill colour `colors[g]` (shared by the whole
group `g`): centre at the position, attributes
`{fill: colors[g], fill-opacity: 0, stroke-opacity: 0, r: 3}`. -/
theorem renderDots_spec (groupPositions : List (List Position)) (colors : List String)
    (hlen : colors.length = groupPositions.length) :
    (renderDots groupPositions colors).length = groupPositions.length ∧
    (∀ g : Nat, ((renderDots groupPositions colors)[g]?).map List.length =
      (groupPositions[g]?).map List.length) ∧
    (∀ g i : Nat, ∀ pos : Position, ∀ color : String,
      tableGet? groupPositions g i = some pos → colors[g]? = some color →
      tableGet? (renderDots groupPositions colors) g i = some (renderDot pos color)) ∧
    (∀ pos : Position, ∀ color : String, renderDot pos color =
      { cx := pos.left, cy := pos.top,
        attrs := { fill := some (.str color), fillOpacity := some (.num 0),
                   strokeOpacity := some (.num 0), r := some (.num 3) } }) := by
  refine ⟨by simp [renderDots], ?_, ?_, fun pos color => rfl⟩
  · intro g
    by_cases hg : g < groupPositions.length
    · unfold renderDots
      rw [List.getElem?_map, List.getElem?_range hg, List.getElem?_eq_getElem hg]
      show some ((groupPositions.getD g []).map _).length = some groupPositions[g].length
      rw [List.length_map, List.getD_eq_getElem?_getD, List.getElem?_eq_getElem hg]
      rfl
    · have h1 : (renderDots groupPositions colors)[g]? = none := by
        rw [List.getElem?_eq_none_iff]
        simpa [renderDots] using Nat.le_of_not_lt hg
      have h2 : groupPositions[g]? = none := by
        rw [List.getElem?_eq_none_iff]
        exact Nat.le_of_not_lt hg
      rw [h1, h2]
      rfl
  · intro g i pos color hpos hcolor
    obtain ⟨prow, hprow, hppos⟩ :
        ∃ prow, groupPositions[g]? = some prow ∧ prow[i]? = some pos := by
      unfold tableGet? at hpos
      cases hr : groupPositions[g]? with
      | none => rw [hr] at hpos; exact absurd hpos (by simp)
      | some prow => rw [hr] at hpos; exact ⟨prow, rfl, hpos⟩
    have hg : g < groupPositions.length := by
      rw [List.getElem?_eq_some] at hprow
      exact hprow.1
    have hrow : groupPositions.getD g [] = prow := by
      rw [List.getD_eq_getElem?_getD, hprow]
      rfl
    have hcol : colors.getD g "" = color := by
      rw [List.getD_eq_getElem?_getD, hcolor]
      rfl
    unfold tableGet? renderDots
    rw [List.getElem?_map, List.getElem?_range hg]
    show ((groupPositions.getD g []).map fun position =>
        renderDot position (colors.getD g ""))[i]? = _
    rw [hrow, hcol, List.getElem?_map, hppos]
    rfl

/-- Witness for C7 at a concrete ragged table: groups of sizes 2, 0 and 3
with one colour per group. -/
theorem renderDots_spec_witness :
    (renderDots [[{ left := 1, top := 1 }, { left := 2, top := 2 }], [],
        [{ left := 3, top := 3 }, { left := 4, top := 4 }, { left := 5, top := 5 }]]
      ["a", "b", "c"]).length = 3 ∧
    (∀ g : Nat, ((renderDots [[{ left := 1, top := 1 }, { left := 2, top := 2 }], [],
        [{ left := 3, top := 3 }, { left := 4, top := 4 }, { left := 5, top := 5 }]]
      ["a", "b", "c"])[g]?).map List.length =
      (([[{ left := 1, top := 1 }, { left := 2, top := 2 }], [],
        [{ left := 3, top := 3 }, { left := 4, top := 4 }, { left := 5, top := 5 }]] :
        List (List Position))[g]?).map List.length) ∧
    (∀ g i : Nat, ∀ pos : Position, ∀ color : String,
      tableGet? [[{ left := 1, top := 1 }, { left := 2, top := 2 }], [],
        [{ left := 3, top := 3 }, { left := 4, top := 4 }, { left := 5, top := 5 }]]
        g i = some pos →
      (["a", "b", "c"] : List String)[g]? = some color →
      tableGet? (renderDots [[{ left := 1, top := 1 }, { left := 2, top := 2 }], [],
        [{ left := 3, top := 3 }, { left := 4, top := 4 }, { left := 5, top := 5 }]]
        ["a", "b", "c"]) g i = some (renderDot pos color)) ∧
    (∀ pos : Position, ∀ color : String, renderDot pos color =
      { cx := pos.left, cy := pos.top,
        attrs := { fill := some (.str color), fillOpacity := some (.num 0),
                   strokeOpacity := some (.num 0), r := some (.num 3) } }) := by
  have h := renderDots_spec [[{ left := 1, top := 1 }, { left := 2, top := 2 }], [],
      [{ left := 3, top := 3 }, { left := 4, top := 4 }, { left := 5, top := 5 }]]
    ["a", "b", "c"] rfl
  exact ⟨h.1, h.2.1, h.2.2.1, h.2.2.2⟩

end RaphaelLineTypeBase
